import Mathlib

/-!
Verification of the routing-and-pipeline-execution engine of the
lambda-resize-image repository (src/main.py), via a shallow embedding.

Design of the embedding:
  * Python dicts holding rule configuration become Lean structures with
    `Option` fields for keys that may be absent (`RuleCfg`, `OutputCfg`).
  * The external collaborators — the regex engine `re.match`, the builtin
    `str.format`, `urllib.unquote_plus`, `mimetypes.guess_type`, PIL,
    imgutil, boto3 — are modelled as explicit function parameters (their
    outcomes), so that the repository's own control flow is what the
    definitions capture. `re.match pattern key` is modelled as an opaque
    `rematch : String → String → Option (List String)` returning the list
    of captured groups on an (anchored-at-start) match; `str.format` as
    `fmt : String → List String → Option String`, `none` standing for an
    `IndexError` raised by a placeholder referencing a missing group.
  * Fallible Python code (raising exceptions) returns `Option`/`Except`.
  * Side-effecting stages (download, resize/optimize/upload attempts) are
    recorded in explicit traces so claims about "no work performed" and
    "every output attempted" are statable.
-/

namespace LambdaResize

/-- One configured output of a rule: the `output` dicts in `Config.setting`
(`bucket`, `key` template, `width`, `policy`, `region`, `attr`), each
optional except the key template (whose absence is outside this model). -/
structure OutputCfg where
  bucket : Option String
  key : String
  width : Option Int
  policy : Option String
  region : Option String
  attr : Option (List (String × String))
deriving DecidableEq

/-- One configuration rule from `Config.setting`: a dict with optional
`bucket` and `key_regexp` keys and an `outputs` list (a missing `outputs`
key is the empty list, matching `c.get('outputs', [])`). -/
structure RuleCfg where
  bucket : Option String
  key_regexp : Option String
  outputs : List OutputCfg
deriving DecidableEq

/-- `mapOpt f l` applies the fallible `f` to every element in order,
failing as soon as one application fails (the Option-monad `mapM`,
spelled out for direct inductive reasoning). -/
def mapOpt (f : α → Option β) : List α → Option (List β)
  | [] => some []
  | a :: l =>
    match f a with
    | none => none
    | some b => (mapOpt f l).map (fun bs => b :: bs)

/-- The per-output body of the matching loop in `find_config_objects`
(src/main.py lines 57-61): default the output bucket to the source bucket,
then substitute the captured groups into the key template with
`str.format`; a substitution failure (IndexError) propagates as `none`. -/
def transformOutput (fmt : String → List String → Option String)
    (groups : List String) (srcBucket : String) (o : OutputCfg) : Option OutputCfg :=
  match fmt o.key groups with
  | none => none
  | some k => some { o with bucket := some (o.bucket.getD srcBucket), key := k }

/-- `find_config_objects` (src/main.py lines 39-65): scan the configured
rules in order; skip a rule whose `bucket` is absent or differs from the
triggering bucket, whose `key_regexp` is absent, whose `outputs` list is
empty, or whose regex does not match the key; for a matching rule,
deep-copy it and rewrite every output (`transformOutput`), appending the
rewritten rule to the result. A substitution failure anywhere aborts the
whole call (`none`). -/
def find_config_objects (rematch : String → String → Option (List String))
    (fmt : String → List String → Option String)
    (bucket key_name : String) : List RuleCfg → Option (List RuleCfg)
  | [] => some []
  | c :: rest =>
    match c.bucket, c.key_regexp with
    | some b, some p =>
      if b = bucket then
        if c.outputs.isEmpty then find_config_objects rematch fmt bucket key_name rest
        else
          match rematch p key_name with
          | none => find_config_objects rematch fmt bucket key_name rest
          | some groups =>
            match mapOpt (transformOutput fmt groups bucket) c.outputs with
            | none => none
            | some outs =>
              (find_config_objects rematch fmt bucket key_name rest).map
                (fun l => { c with outputs := outs } :: l)
      else find_config_objects rematch fmt bucket key_name rest
    | _, _ => find_config_objects rematch fmt bucket key_name rest

/-- Eligibility of a rule for a (bucket, key) trigger, read off the guard
conditions of `find_config_objects`: the rule's bucket equals the source
bucket, it has a `key_regexp`, a non-empty `outputs` list, and the regex
matches the key (anchored at the start, as Python `re.match`). -/
def isEligible (rematch : String → String → Option (List String))
    (bucket key_name : String) (c : RuleCfg) : Bool :=
  match c.bucket, c.key_regexp with
  | some b, some p => b == bucket && !c.outputs.isEmpty && (rematch p key_name).isSome
  | _, _ => false

/-- The rewrite applied to one eligible rule by `find_config_objects`:
recompute the match groups and rewrite each output. -/
def transformRule (rematch : String → String → Option (List String))
    (fmt : String → List String → Option String)
    (bucket key_name : String) (c : RuleCfg) : Option RuleCfg :=
  match c.key_regexp with
  | none => none
  | some p =>
    match rematch p key_name with
    | none => none
    | some groups =>
      (mapOpt (transformOutput fmt groups bucket) c.outputs).map
        (fun outs => { c with outputs := outs })

/-- Positional-placeholder model of Python `str.format`, the substitution
used on output key templates. Modelled from the builtin (an external
collaborator): a template is literal text with single-digit positional
placeholders (an opening brace, one digit, a closing brace); a placeholder
whose index is outside the group list raises IndexError (`none`); other
format syntax is outside this model and also maps to `none`. -/
def pyFormatAux (groups : List String) : List Char → Option (List Char)
  | [] => some []
  | '\x7b' :: d :: '\x7d' :: rest =>
    if d.isDigit then
      match groups.get? (d.toNat - 48) with
      | some g => (pyFormatAux groups rest).map (fun cs => g.toList ++ cs)
      | none => none
    else none
  | '\x7b' :: _ => none
  | '\x7d' :: _ => none
  | c :: rest => (pyFormatAux groups rest).map (fun cs => c :: cs)

/-- String-level wrapper of `pyFormatAux`. -/
def pyFormat (template : String) (groups : List String) : Option String :=
  (pyFormatAux groups template.toList).map String.mk

/-- The two resize policies (class `ResizePolicy`, src/main.py 27-30). -/
def ResizePolicy.DEFAULT : String := "DEFAULT"

/-- The `ONLY_SHRINK` policy constant. -/
def ResizePolicy.ONLY_SHRINK : String := "ONLY_SHRINK"

/-- A decoded source image: its native width (`Image.open(f).size[0]`) and
its raw bytes (what `open(f,'rb').read()` returns). -/
structure SrcImage where
  width : Int
  bytes : List Nat
deriving DecidableEq

/-- What `resize` writes into the output file: either a verbatim copy of
the source bytes, or the result of invoking the `imgresize` transform at
the given target width. -/
inductive ResizeOut where
  | copied (data : List Nat)
  | resized (width : Int)
deriving DecidableEq

/-- `resize` (src/main.py lines 68-77): under `ONLY_SHRINK`, if the target
width is at least the source's native width, copy the source bytes to the
output verbatim and return; in every other case invoke `imgresize` with
the target width. -/
def resize (img : SrcImage) (resize_policy : String) (width : Int) : ResizeOut :=
  if resize_policy = ResizePolicy.ONLY_SHRINK then
    if width ≥ img.width then .copied img.bytes
    else .resized width
  else .resized width

/-- The fixed allow-list of `put_object` parameters
(src/main.py lines 85-107). -/
def permittedKeys : List String :=
  [ "ACL", "CacheControl", "ContentDisposition", "ContentEncoding",
    "ContentLanguage", "ContentLength", "ContentMD5", "ContentType",
    "Expires", "GrantFullControl", "GrantRead", "GrantReadACP",
    "GrantWriteACP", "Metadata", "ServerSideEncryption", "StorageClass",
    "WebsiteRedirectLocation", "SSECustomerAlgorithm", "SSECustomerKey",
    "SSEKMSKeyId", "RequestPayer" ]

/-- `get_put_object_params` (src/main.py lines 80-114): `None` attributes
become the empty mapping; otherwise copy over exactly the entries whose
key is in the allow-list, in iteration order. Python dicts are modelled
as association lists with distinct keys in insertion order. -/
def get_put_object_params (attrs : Option (List (String × String))) : List (String × String) :=
  match attrs with
  | none => []
  | some a =>
    a.foldl (fun ret kv => if kv.1 ∈ permittedKeys then ret ++ [kv] else ret) []

end LambdaResize

namespace LambdaResize

/- ### Characterisation of `find_config_objects` (claim C1) -/

/-- C1: for every configured rule R and trigger (bucket, key), R
contributes to the result of `find_config_objects` exactly when R's bucket
equals the triggering bucket, R has a `key_regexp`, R has at least one
output, and the key matches the regexp (anchored at the start, the
modelled semantics of `re.match`); the result is precisely the eligible
rules, rewritten, in configuration order — formalised as: the function
equals `mapOpt transformRule` over the eligibility-filtered rule list. -/
theorem find_config_objects_matching (rematch : String → String → Option (List String))
    (fmt : String → List String → Option String) (bucket key_name : String)
    (rules : List RuleCfg) :
    find_config_objects rematch fmt bucket key_name rules =
      mapOpt (transformRule rematch fmt bucket key_name)
        (rules.filter (isEligible rematch bucket key_name)) := by
  induction rules with
  | nil => rfl
  | cons c rest ih =>
    rw [find_config_objects]
    match hb : c.bucket, hp : c.key_regexp with
    | none, none =>
      simp [List.filter_cons, isEligible, hb, hp, ih]
    | none, some p =>
      simp [List.filter_cons, isEligible, hb, hp, ih]
    | some b, none =>
      simp [List.filter_cons, isEligible, hb, hp, ih]
    | some b, some p =>
      by_cases hbe : b = bucket
      · subst hbe
        by_cases hout : c.outputs.isEmpty
        · simp [List.filter_cons, isEligible, hb, hp, hout, ih]
        · match hm : rematch p key_name with
          | none =>
            simp [List.filter_cons, isEligible, hb, hp, hout, hm, ih]
          | some groups =>
            have helig : isEligible rematch b key_name c = true := by
              simp [isEligible, hb, hp, hout, hm]
            have hne : c.outputs ≠ [] := by
              intro h
              rw [h] at hout
              exact hout rfl
            rw [ih]
            cases hmo : mapOpt (transformOutput fmt groups b) c.outputs with
            | none =>
              simp [List.filter_cons, helig, mapOpt, transformRule, hp, hm, hmo, hne, hout]
            | some outs =>
              simp [List.filter_cons, helig, mapOpt, transformRule, hp, hm, hmo, hne, hout, hb]
      · simp [List.filter_cons, isEligible, hb, hp, hbe, ih]

/- ### Resize-policy semantics (claim C3) -/

/-- C3: under `ONLY_SHRINK`, `resize` first inspects the source's native
width: when the target width is at least the native width the output is a
verbatim byte copy of the source and the resize transform is not invoked;
when the target width is smaller it behaves exactly as `DEFAULT`; under
`DEFAULT` the resize transform is always invoked. -/
theorem resize_policy_semantics (img : SrcImage) (w : Int) :
    resize img ResizePolicy.ONLY_SHRINK w =
      (if w ≥ img.width then ResizeOut.copied img.bytes
       else resize img ResizePolicy.DEFAULT w)
    ∧ resize img ResizePolicy.DEFAULT w = ResizeOut.resized w := by
  constructor
  · by_cases h : w ≥ img.width
    · rw [if_pos h]
      unfold resize
      rw [if_pos rfl, if_pos h]
    · rw [if_neg h]
      unfold resize
      rw [if_pos rfl, if_neg h,
        if_neg (by decide : ¬(ResizePolicy.DEFAULT = ResizePolicy.ONLY_SHRINK))]
  · unfold resize
    rw [if_neg (by decide : ¬(ResizePolicy.DEFAULT = ResizePolicy.ONLY_SHRINK))]

/- ### Attribute allow-list (claim C8) -/

theorem foldl_append_filter_permitted (a : List (String × String)) :
    ∀ acc : List (String × String),
      a.foldl (fun ret kv => if kv.1 ∈ permittedKeys then ret ++ [kv] else ret) acc =
        acc ++ a.filter (fun kv => decide (kv.1 ∈ permittedKeys)) := by
  induction a with
  | nil =>
    intro acc
    simp
  | cons kv rest ih =>
    intro acc
    by_cases h : kv.1 ∈ permittedKeys
    · simp [List.foldl_cons, h, ih, List.filter_cons, List.append_assoc]
    · simp [List.foldl_cons, h, ih, List.filter_cons]

/-- C8: filtering raw attributes keeps exactly the entries whose key is in
the fixed allow-list, with values unchanged and order preserved; every
other key is dropped; absent (`None`) attributes give the empty mapping. -/
theorem get_put_object_params_allowlist :
    get_put_object_params none = [] ∧
    ∀ a : List (String × String),
      get_put_object_params (some a) =
        a.filter (fun kv => decide (kv.1 ∈ permittedKeys)) := by
  refine ⟨rfl, ?_⟩
  intro a
  show a.foldl _ [] = _
  rw [foldl_append_filter_permitted a []]
  simp

/- ### Per-output pipeline `process` (claim C5) -/

/-- Python exceptions that the modelled pipeline can raise. -/
inductive PyErr where
  | valueError (msg : String)
  | exc (tag : String)
deriving DecidableEq

/-- The observable stages of one output's pipeline. -/
inductive PStep where
  | resizeStage
  | optimizeStage
  | uploadStage
deriving DecidableEq

/-- `process` (src/main.py lines 160-177): raise `ValueError('Unknown
width')` when the output setting has no width; otherwise run resize, then
optimize, then upload, each of which may raise. The outcomes of the three
stages (external image and network operations) are parameters `r`, `o`,
`u`; the returned list records which stages were entered, in order. -/
def process (r o u : Except PyErr Unit) (setting : OutputCfg) :
    List PStep × Except PyErr Unit :=
  match setting.width with
  | none => ([], .error (.valueError "Unknown width"))
  | some _ =>
    match r with
    | .error e => ([.resizeStage], .error e)
    | .ok _ =>
      match o with
      | .error e => ([.resizeStage, .optimizeStage], .error e)
      | .ok _ =>
        match u with
        | .error e => ([.resizeStage, .optimizeStage, .uploadStage], .error e)
        | .ok _ => ([.resizeStage, .optimizeStage, .uploadStage], .ok ())

/- ### Upload retry (claim C7) -/

/-- Semantics of the `retrying` library's `@retry(stop_max_attempt_number=10)`
decorator wrapping `upload` (src/main.py line 131), modelled over the
per-attempt outcomes `f i` of the decorated body: run attempt `i`; on
success return it; on failure retry while attempts remain, and surface the
last attempt's error once they are exhausted. -/
def retryCall (f : Nat → Except PyErr Unit) : Nat → Nat → Except PyErr Unit
  | i, 0 => f i
  | i, m + 1 =>
    match f i with
    | .ok a => .ok a
    | .error _ => retryCall f (i + 1) m

/-- The retried upload: first attempt is attempt 0, nine retries remain,
ten attempts in total. -/
def uploadRetried (f : Nat → Except PyErr Unit) : Except PyErr Unit :=
  retryCall f 0 9

/- ### The orchestrator `lambda_handler` (claims C2, C4, C9, C10) -/

/-- One record of the triggering S3 event: `s3.bucket.name` and
`s3.object.key`. -/
structure S3Record where
  bucket : String
  key : String
deriving DecidableEq

/-- Left-biased choice on options: the semantics of "a later assignment to
`raised_exc` wins over an earlier one" when read right-to-left. -/
def firstSome : Option α → Option α → Option α
  | some a, _ => some a
  | none, b => b

/-- The error component of a per-output outcome. -/
def excErr : Except ε Unit → Option ε
  | .ok _ => none
  | .error e => some e

/-- One iteration of the orchestrator's inner loop (src/main.py 206-212):
call `process` on the output inside `try`, record the attempt, and on
failure overwrite `raised_exc` with the new exception. -/
def outputStep (pf : OutputCfg → Except ε Unit)
    (acc : List OutputCfg × Option ε) (o : OutputCfg) : List OutputCfg × Option ε :=
  (acc.1 ++ [o],
   match pf o with
   | .ok _ => acc.2
   | .error e => some e)

/-- The orchestrator's double loop over matched rules and their outputs,
threading the attempted-output trace and `raised_exc`. -/
def runAll (pf : OutputCfg → Except ε Unit) (settings : List RuleCfg) :
    List OutputCfg × Option ε :=
  settings.foldl (fun acc s => s.outputs.foldl (outputStep pf) acc) ([], none)

/-- All outputs of all matched rules, in configuration order. -/
def allOutputs : List RuleCfg → List OutputCfg
  | [] => []
  | s :: rest => s.outputs ++ allOutputs rest

/-- The exception surfaced after attempting a list of outputs: the error
of the most recently failing output, if any. -/
def lastErr (pf : OutputCfg → Except ε Unit) : List OutputCfg → Option ε
  | [] => none
  | o :: rest => firstSome (lastErr pf rest) (excErr (pf o))

/-- Outcome of one invocation of `lambda_handler`, as observable effects:
`eventError` — the event had no record (IndexError before anything ran);
`configCrash` — an exception escaped `find_config_objects` (bad template
substitution), before any download or output processing;
`noMatch` — zero rules matched: a warning is logged and the handler
returns successfully without downloading or processing anything;
`completed bucket_key attempted raised` — the source `(bucket, key)` was
downloaded once, `attempted` lists every output handed to `process` in
order, and `raised` is the exception re-raised at the end, if any. -/
inductive HandlerOutcome (ε : Type) where
  | eventError
  | configCrash
  | noMatch
  | completed (download : String × String) (attempted : List OutputCfg) (raised : Option ε)
deriving DecidableEq

/-- `lambda_handler` (src/main.py lines 186-215): take bucket and key from
the first event record, decode the key (`unquote` models
`urllib.unquote_plus(...).decode('utf8')`), match the rules; return with a
warning on zero matches; otherwise download the source once and run every
output of every matched rule through `process` (outcome function `pf`),
catching each failure and re-raising the last one at the end. -/
def lambda_handler (rematch : String → String → Option (List String))
    (fmt : String → List String → Option String) (unquote : String → String)
    (pf : OutputCfg → Except ε Unit) (rules : List RuleCfg)
    (records : List S3Record) : HandlerOutcome ε :=
  match records with
  | [] => .eventError
  | r :: _ =>
    match find_config_objects rematch fmt r.bucket (unquote r.key) rules with
    | none => .configCrash
    | some settings =>
      if settings.isEmpty then .noMatch
      else
        let run := runAll pf settings
        .completed (r.bucket, unquote r.key) run.1 run.2

/-- Source objects downloaded during the invocation. -/
def HandlerOutcome.downloads : HandlerOutcome ε → List (String × String)
  | .completed d _ _ => [d]
  | _ => []

/-- Outputs handed to the per-output pipeline during the invocation. -/
def HandlerOutcome.attempted : HandlerOutcome ε → List OutputCfg
  | .completed _ a _ => a
  | _ => []

/-- Whether the invocation returned without raising. -/
def HandlerOutcome.succeeded : HandlerOutcome ε → Bool
  | .noMatch => true
  | .completed _ _ none => true
  | _ => false

theorem firstSome_none_right (x : Option α) : firstSome x none = x := by
  cases x <;> rfl

theorem firstSome_assoc (x y z : Option α) :
    firstSome (firstSome x y) z = firstSome x (firstSome y z) := by
  cases x <;> rfl

theorem foldl_outputStep_trace (pf : OutputCfg → Except ε Unit) (l : List OutputCfg) :
    ∀ acc : List OutputCfg × Option ε,
      (l.foldl (outputStep pf) acc).1 = acc.1 ++ l := by
  induction l with
  | nil =>
    intro acc
    simp
  | cons o rest ih =>
    intro acc
    rw [List.foldl_cons, ih]
    simp [outputStep]

theorem foldl_outputStep_raised (pf : OutputCfg → Except ε Unit) (l : List OutputCfg) :
    ∀ acc : List OutputCfg × Option ε,
      (l.foldl (outputStep pf) acc).2 = firstSome (lastErr pf l) acc.2 := by
  induction l with
  | nil =>
    intro acc
    simp [lastErr, firstSome]
  | cons o rest ih =>
    intro acc
    rw [List.foldl_cons, ih, lastErr, firstSome_assoc]
    have hstep : (outputStep pf acc o).2 = firstSome (excErr (pf o)) acc.2 := by
      cases hpo : pf o <;> simp [outputStep, excErr, firstSome, hpo]
    rw [hstep]

theorem foldl_runAll_flatten (pf : OutputCfg → Except ε Unit) (settings : List RuleCfg) :
    ∀ acc : List OutputCfg × Option ε,
      settings.foldl (fun acc s => s.outputs.foldl (outputStep pf) acc) acc =
        (allOutputs settings).foldl (outputStep pf) acc := by
  induction settings with
  | nil =>
    intro acc
    rfl
  | cons s rest ih =>
    intro acc
    rw [List.foldl_cons, ih, allOutputs, List.foldl_append]

theorem runAll_eq (pf : OutputCfg → Except ε Unit) (settings : List RuleCfg) :
    runAll pf settings = (allOutputs settings, lastErr pf (allOutputs settings)) := by
  rw [runAll, foldl_runAll_flatten]
  refine Prod.ext ?_ ?_
  · rw [foldl_outputStep_trace]
    rfl
  · rw [foldl_outputStep_raised]
    exact firstSome_none_right _

theorem lastErr_eq_none_iff (pf : OutputCfg → Except ε Unit) (l : List OutputCfg) :
    lastErr pf l = none ↔ ∀ o ∈ l, pf o = .ok () := by
  induction l with
  | nil => simp [lastErr]
  | cons o rest ih =>
    rw [lastErr]
    constructor
    · intro h
      have h1 : lastErr pf rest = none := by
        cases hr : lastErr pf rest with
        | none => rfl
        | some e =>
          rw [hr] at h
          exact absurd h (by simp [firstSome])
      have h2 : excErr (pf o) = none := by
        rw [h1] at h
        simpa [firstSome] using h
      intro x hx
      rcases List.mem_cons.mp hx with hx | hx
      · subst hx
        cases hpo : pf x with
        | ok u =>
          cases u
          rfl
        | error e =>
          rw [hpo] at h2
          exact absurd h2 (by simp [excErr])
      · exact (ih.mp h1) x hx
    · intro h
      have h1 : lastErr pf rest = none :=
        ih.mpr (fun x hx => h x (List.mem_cons_of_mem _ hx))
      have h2 : pf o = .ok () := h o (List.mem_cons_self o rest)
      rw [h1, h2]
      rfl

/-- C2: whenever at least one rule matches, the handler downloads the
source once and hands every output of every matched rule to the pipeline,
in order, regardless of failures; the exception re-raised at the end is
that of the most recently failing output (`lastErr`), and the invocation
succeeds exactly when every output succeeded. -/
theorem lambda_handler_failure_aggregation
    (rematch : String → String → Option (List String))
    (fmt : String → List String → Option String) (unquote : String → String)
    (pf : OutputCfg → Except ε Unit) (rules : List RuleCfg)
    (r : S3Record) (rest : List S3Record) (settings : List RuleCfg)
    (hfind : find_config_objects rematch fmt r.bucket (unquote r.key) rules = some settings)
    (hne : settings ≠ []) :
    lambda_handler rematch fmt unquote pf rules (r :: rest) =
      .completed (r.bucket, unquote r.key) (allOutputs settings)
        (lastErr pf (allOutputs settings))
    ∧ (lastErr pf (allOutputs settings) = none ↔
        ∀ o ∈ allOutputs settings, pf o = .ok ()) := by
  constructor
  · rw [lambda_handler, hfind]
    have hemp : settings.isEmpty = false := by
      cases settings with
      | nil => exact absurd rfl hne
      | cons a l => rfl
    simp [hemp, runAll_eq]
  · exact lastErr_eq_none_iff pf (allOutputs settings)

/-- C9: when the decoded key matches zero rules, the handler logs a
warning and returns successfully, downloading nothing and handing no
output to the resize/optimize/upload pipeline. -/
theorem no_match_returns_success
    (rematch : String → String → Option (List String))
    (fmt : String → List String → Option String) (unquote : String → String)
    (pf : OutputCfg → Except ε Unit) (rules : List RuleCfg)
    (r : S3Record) (rest : List S3Record)
    (hfind : find_config_objects rematch fmt r.bucket (unquote r.key) rules = some []) :
    lambda_handler rematch fmt unquote pf rules (r :: rest) = .noMatch
    ∧ (lambda_handler rematch fmt unquote pf rules (r :: rest)).succeeded = true
    ∧ (lambda_handler rematch fmt unquote pf rules (r :: rest)).downloads = []
    ∧ (lambda_handler rematch fmt unquote pf rules (r :: rest)).attempted = [] := by
  have h : lambda_handler rematch fmt unquote pf rules (r :: rest) = .noMatch := by
    simp [lambda_handler, hfind]
  refine ⟨h, ?_, ?_, ?_⟩ <;> rw [h] <;> rfl

/-- C10: only the first event record determines what the handler does;
any further records in the same event are ignored entirely. -/
theorem lambda_handler_first_record_only
    (rematch : String → String → Option (List String))
    (fmt : String → List String → Option String) (unquote : String → String)
    (pf : OutputCfg → Except ε Unit) (rules : List RuleCfg)
    (r : S3Record) (rest : List S3Record) :
    lambda_handler rematch fmt unquote pf rules (r :: rest) =
      lambda_handler rematch fmt unquote pf rules [r] := rfl

/-- C4 (amended): a key-template substitution failure happens inside
`find_config_objects`, which runs outside the per-output try/except; it
therefore propagates out of `lambda_handler` at once — the whole
invocation aborts before the source is downloaded and before any output
(of the failing rule or of any other rule) is attempted. -/
theorem substitution_failure_aborts_invocation
    (rematch : String → String → Option (List String))
    (fmt : String → List String → Option String) (unquote : String → String)
    (pf : OutputCfg → Except ε Unit) (rules : List RuleCfg)
    (r : S3Record) (rest : List S3Record)
    (hfind : find_config_objects rematch fmt r.bucket (unquote r.key) rules = none) :
    lambda_handler rematch fmt unquote pf rules (r :: rest) = .configCrash
    ∧ (lambda_handler rematch fmt unquote pf rules (r :: rest)).attempted = []
    ∧ (lambda_handler rematch fmt unquote pf rules (r :: rest)).downloads = []
    ∧ (lambda_handler rematch fmt unquote pf rules (r :: rest)).succeeded = false := by
  have h : lambda_handler rematch fmt unquote pf rules (r :: rest) = .configCrash := by
    simp [lambda_handler, hfind]
  refine ⟨h, ?_, ?_, ?_⟩ <;> rw [h] <;> rfl

/-- Identity model of `urllib.unquote_plus(...).decode('utf8')` on keys
containing no percent- or plus-escapes. -/
def wUnquote : String → String := fun s => s

/-- Concrete anchored-match function for witnesses: pattern "p" matches
key "kk" with no capture groups. -/
def wRematch : String → String → Option (List String) :=
  fun p k => if p == "p" && k == "kk" then some [] else none

/-- Witness pipeline outcome: the output with key template "k2" fails. -/
def wPf : OutputCfg → Except String Unit :=
  fun o => if o.key == "k2" then .error "boom" else .ok ()

/-- Output whose key template references capture group 1 when the match
has no groups: `str.format` raises IndexError on it. -/
def cexBadOut : OutputCfg :=
  { bucket := some "ob", key := "\x7b1\x7d", width := some 100,
    policy := none, region := none, attr := none }

/-- A sibling output with a plain (always substitutable) key template. -/
def cexGoodOut : OutputCfg :=
  { bucket := some "ob", key := "sibling", width := some 100,
    policy := none, region := none, attr := none }

/-- A rule whose first output has the bad template and whose second is
fine. -/
def cexRule : RuleCfg :=
  { bucket := some "b", key_regexp := some "p", outputs := [cexBadOut, cexGoodOut] }

/-- C4 counterexample: with a matched rule containing one output whose
template references a non-existent group and one healthy sibling output,
the invocation crashes inside `find_config_objects`: the sibling output is
never attempted and the invocation aborts before any output is processed,
contradicting the claim that the failure is fatal for that one output
only. -/
theorem substitution_failure_cex :
    lambda_handler wRematch pyFormat wUnquote wPf [cexRule] [⟨"b", "kk"⟩] =
      HandlerOutcome.configCrash
    ∧ (lambda_handler wRematch pyFormat wUnquote wPf [cexRule] [⟨"b", "kk"⟩]).attempted = []
    ∧ (lambda_handler wRematch pyFormat wUnquote wPf [cexRule] [⟨"b", "kk"⟩]).succeeded
        = false := by
  refine ⟨?_, ?_, ?_⟩ <;> rfl

theorem substitution_failure_aborts_invocation_witness :
    lambda_handler wRematch pyFormat wUnquote wPf [cexRule] [⟨"b", "kk"⟩] = .configCrash
    ∧ (lambda_handler wRematch pyFormat wUnquote wPf [cexRule] [⟨"b", "kk"⟩]).attempted = []
    ∧ (lambda_handler wRematch pyFormat wUnquote wPf [cexRule] [⟨"b", "kk"⟩]).downloads = []
    ∧ (lambda_handler wRematch pyFormat wUnquote wPf [cexRule] [⟨"b", "kk"⟩]).succeeded
        = false :=
  substitution_failure_aborts_invocation wRematch pyFormat wUnquote wPf [cexRule]
    ⟨"b", "kk"⟩ [] rfl

/-- C5 (amended): `process` validates only the presence of `width`: when
it is absent the output fails at once with `ValueError('Unknown width')`
and no resize, optimize, or upload stage runs; when any width value is
present — positive or not — validation passes and the pipeline proceeds
straight to the resize stage (positivity is never checked). An erroring
output never stops the orchestrator's loop: every output is still
attempted (`runAll` trace). -/
theorem process_width_presence_validation (r o u : Except PyErr Unit) (s : OutputCfg) :
    (s.width = none → process r o u s = ([], .error (.valueError "Unknown width")))
    ∧ (∀ w : Int, s.width = some w → (process r o u s).1.head? = some .resizeStage)
    ∧ (∀ (pf : OutputCfg → Except PyErr Unit) (settings : List RuleCfg),
        (runAll pf settings).1 = allOutputs settings) := by
  refine ⟨?_, ?_, ?_⟩
  · intro h
    simp [process, h]
  · intro w h
    cases r <;> cases o <;> cases u <;> simp [process, h]
  · intro pf settings
    rw [runAll_eq]

/-- An output setting with no width at all. -/
def cexNoWidthOut : OutputCfg :=
  { bucket := some "ob", key := "k", width := none,
    policy := none, region := none, attr := none }

/-- An output setting whose width is present but not positive. -/
def cexZeroOut : OutputCfg :=
  { bucket := some "ob", key := "k", width := some 0,
    policy := none, region := none, attr := none }

/-- C5 counterexample: an output whose width is 0 — present but not a
positive integer — is not rejected with a configuration error: validation
passes, all three pipeline stages run, and the output even succeeds,
contradicting the claim that a non-positive width fails immediately
before any work is performed. -/
theorem width_zero_passes_validation_cex :
    process (.ok ()) (.ok ()) (.ok ()) cexZeroOut =
      ([.resizeStage, .optimizeStage, .uploadStage], .ok ()) := rfl

theorem process_width_presence_validation_witness :
    process (.ok ()) (.ok ()) (.ok ()) cexNoWidthOut =
      ([], .error (.valueError "Unknown width"))
    ∧ (process (.ok ()) (.ok ()) (.ok ()) cexZeroOut).1.head? = some .resizeStage
    ∧ (runAll (fun _ => (Except.error (PyErr.exc "boom") : Except PyErr Unit)) [cexRule]).1
        = allOutputs [cexRule] :=
  ⟨(process_width_presence_validation (.ok ()) (.ok ()) (.ok ()) cexNoWidthOut).1 rfl,
   (process_width_presence_validation (.ok ()) (.ok ()) (.ok ()) cexZeroOut).2.1 0 rfl,
   (process_width_presence_validation (.ok ()) (.ok ()) (.ok ()) cexZeroOut).2.2
     (fun _ => (Except.error (PyErr.exc "boom") : Except PyErr Unit)) [cexRule]⟩

/- ### Attribute inference and precedence in `upload` (claim C6) -/

/-- Lookup in a Python dict modelled as an association list in insertion
order (first matching key wins; dict keys are unique). -/
def lookupKey (k : String) : List (String × String) → Option String
  | [] => none
  | (k', v) :: rest => if k' = k then some v else lookupKey k rest

/-- `guess_mimetype` (src/main.py lines 117-128): build the inferred
attributes from the output filename via `mimetypes.guess_type` (the
external guesser is the parameter `guessType`, returning the content type
and the encoding): record `ContentType` when a type was guessed and
`ContentEncoding=gzip` when the guessed encoding is gzip. -/
def guess_mimetype (guessType : String → Option String × Option String)
    (filename : String) : List (String × String) :=
  let gt := guessType filename
  let ret := match gt.1 with
    | some c => [("ContentType", c)]
    | none => []
  if gt.2 = some "gzip" then ret ++ [("ContentEncoding", "gzip")] else ret

/-- The merge loop of `upload` (src/main.py lines 142-144): for each
inferred key, add it to the explicit attributes only when that key is not
already present. -/
def mergeInferred (extra args : List (String × String)) : List (String × String) :=
  args.foldl (fun ea kv => if (lookupKey kv.1 ea).isSome then ea else ea ++ [kv]) extra

/-- The `ExtraArgs` that `upload` (src/main.py lines 131-157) passes to
`s3.upload_file`: the allow-list-filtered explicit attributes, with the
inferred mimetype attributes merged in without overriding. -/
def uploadExtraArgs (guessType : String → Option String × Option String)
    (filename : String) (attr : Option (List (String × String))) :
    List (String × String) :=
  mergeInferred (get_put_object_params attr) (guess_mimetype guessType filename)

theorem lookupKey_append (k : String) (l1 l2 : List (String × String)) :
    lookupKey k (l1 ++ l2) = firstSome (lookupKey k l1) (lookupKey k l2) := by
  induction l1 with
  | nil => simp [lookupKey, firstSome]
  | cons kv rest ih =>
    obtain ⟨k', v⟩ := kv
    by_cases h : k' = k <;> simp [lookupKey, h, ih, firstSome]

theorem lookupKey_filter_permitted (k : String) (hk : k ∈ permittedKeys)
    (raw : List (String × String)) :
    lookupKey k (raw.filter (fun kv => decide (kv.1 ∈ permittedKeys))) =
      lookupKey k raw := by
  induction raw with
  | nil => rfl
  | cons kv rest ih =>
    obtain ⟨k', v⟩ := kv
    by_cases h : k' = k
    · subst h
      simp [List.filter_cons, hk, lookupKey, ih]
    · by_cases hp : k' ∈ permittedKeys <;>
        simp [List.filter_cons, hp, lookupKey, h, ih]

theorem mergeInferred_cons (extra : List (String × String)) (kv : String × String)
    (rest : List (String × String)) :
    mergeInferred extra (kv :: rest) =
      mergeInferred (if (lookupKey kv.1 extra).isSome then extra else extra ++ [kv])
        rest := by
  rw [mergeInferred, List.foldl_cons]
  rfl

theorem mergeInferred_preserves (args : List (String × String)) :
    ∀ (extra : List (String × String)) (k v : String),
      lookupKey k extra = some v →
      lookupKey k (mergeInferred extra args) = some v := by
  induction args with
  | nil =>
    intro extra k v h
    exact h
  | cons kv rest ih =>
    intro extra k v h
    rw [mergeInferred_cons]
    by_cases hc : (lookupKey kv.1 extra).isSome
    · rw [if_pos hc]
      exact ih extra k v h
    · rw [if_neg hc]
      apply ih
      rw [lookupKey_append, h]
      rfl

theorem mergeInferred_adds (args : List (String × String)) :
    ∀ (extra : List (String × String)) (k v : String),
      lookupKey k extra = none →
      lookupKey k args = some v →
      lookupKey k (mergeInferred extra args) = some v := by
  induction args with
  | nil =>
    intro extra k v h1 h2
    exact absurd h2 (by simp [lookupKey])
  | cons kv rest ih =>
    intro extra k v h1 h2
    obtain ⟨ka, va⟩ := kv
    rw [mergeInferred_cons]
    by_cases hk : ka = k
    · subst hk
      rw [lookupKey, if_pos rfl] at h2
      have hc : ¬((lookupKey (ka, va).1 extra).isSome = true) := by
        simp [h1]
      rw [if_neg hc]
      apply mergeInferred_preserves
      rw [lookupKey_append, h1]
      simpa [lookupKey, firstSome] using h2
    · rw [lookupKey, if_neg hk] at h2
      by_cases hc : (lookupKey (ka, va).1 extra).isSome
      · rw [if_pos hc]
        exact ih extra k v h1 h2
      · rw [if_neg hc]
        apply ih _ k v _ h2
        rw [lookupKey_append, h1]
        simp [lookupKey, firstSome, hk]

/-- C6: in the `ExtraArgs` computed by `upload`, an attribute key that the
configuration supplies explicitly (and that survives the allow-list) keeps
its explicitly configured value — the inferred mimetype values never
override it; and an inferred value (ContentType, ContentEncoding from the
output filename) is merged in exactly when the explicit attributes do not
already bind that key. -/
theorem upload_attribute_precedence
    (guessType : String → Option String × Option String) (filename : String)
    (raw : List (String × String)) :
    (∀ k v, k ∈ permittedKeys → lookupKey k raw = some v →
      lookupKey k (uploadExtraArgs guessType filename (some raw)) = some v)
    ∧ (∀ k v, lookupKey k (get_put_object_params (some raw)) = none →
      lookupKey k (guess_mimetype guessType filename) = some v →
      lookupKey k (uploadExtraArgs guessType filename (some raw)) = some v) := by
  constructor
  · intro k v hk hraw
    apply mergeInferred_preserves
    have hfilter : get_put_object_params (some raw) =
        raw.filter (fun kv => decide (kv.1 ∈ permittedKeys)) := by
      show raw.foldl _ [] = _
      rw [foldl_append_filter_permitted raw []]
      simp
    rw [hfilter, lookupKey_filter_permitted k hk raw]
    exact hraw
  · intro k v h1 h2
    exact mergeInferred_adds _ _ k v h1 h2

/-- Witness mimetype guesser: every filename guesses as JPEG with no
content encoding. -/
def wGuessJpeg : String → Option String × Option String :=
  fun _ => (some "image/jpeg", none)

theorem upload_attribute_precedence_witness :
    lookupKey "ContentType"
      (uploadExtraArgs wGuessJpeg "out.jpg" (some [("ContentType", "image/png")])) =
      some "image/png"
    ∧ lookupKey "ContentType"
      (uploadExtraArgs wGuessJpeg "out.jpg" (some [("RandomKey", "x")])) =
      some "image/jpeg" :=
  ⟨(upload_attribute_precedence wGuessJpeg "out.jpg" [("ContentType", "image/png")]).1
      "ContentType" "image/png" (by decide) rfl,
   (upload_attribute_precedence wGuessJpeg "out.jpg" [("RandomKey", "x")]).2
      "ContentType" "image/jpeg" rfl rfl⟩

/- ### Retry bound of `upload` (claim C7) -/

theorem retryCall_all_fail (f : Nat → Except PyErr Unit) :
    ∀ (n i : Nat), (∀ j, j ≤ n → (f (i + j)).isOk = false) →
      retryCall f i n = f (i + n) := by
  intro n
  induction n with
  | zero =>
    intro i h
    rfl
  | succ m ih =>
    intro i h
    have h0 : (f i).isOk = false := by
      have := h 0 (Nat.zero_le _)
      simpa using this
    cases hf : f i with
    | ok u =>
      exfalso
      rw [hf] at h0
      simp [Except.isOk, Except.toBool] at h0
    | error e =>
      have hrec : retryCall f (i + 1) m = f (i + 1 + m) := by
        apply ih
        intro j hj
        have h' := h (j + 1) (Nat.succ_le_succ hj)
        rw [show i + (j + 1) = i + 1 + j by omega] at h'
        exact h'
      calc retryCall f i (m + 1) = retryCall f (i + 1) m := by
            rw [retryCall, hf]
        _ = f (i + 1 + m) := hrec
        _ = f (i + (m + 1)) := by rw [show i + 1 + m = i + (m + 1) by omega]

theorem retryCall_stops_at_success (f : Nat → Except PyErr Unit) :
    ∀ (j n i : Nat), j ≤ n → f (i + j) = .ok () →
      (∀ t, t < j → (f (i + t)).isOk = false) →
      retryCall f i n = .ok () := by
  intro j
  induction j with
  | zero =>
    intro n i _ hok _
    rw [Nat.add_zero] at hok
    cases n with
    | zero =>
      rw [retryCall]
      exact hok
    | succ m =>
      rw [retryCall, hok]
  | succ j' ih =>
    intro n i hjn hok hprev
    cases n with
    | zero => exact absurd hjn (by omega)
    | succ m =>
      have h0 : (f i).isOk = false := by
        have := hprev 0 (Nat.succ_pos _)
        simpa using this
      cases hf : f i with
      | ok u =>
        exfalso
        rw [hf] at h0
        simp [Except.isOk, Except.toBool] at h0
      | error e =>
        rw [retryCall, hf]
        apply ih m (i + 1) (by omega)
        · rw [show i + 1 + j' = i + (j' + 1) by omega]
          exact hok
        · intro t ht
          have := hprev (t + 1) (by omega)
          rw [show i + (t + 1) = i + 1 + t by omega] at this
          exact this

/-- C7: the decorated `upload` makes up to exactly 10 total attempts: when
every one of the 10 attempts fails, the surfaced result is the error of
the 10th (last) attempt, whatever later attempts would have returned; and
when some attempt at or before the 10th succeeds (all earlier ones having
failed), the upload is a success, never reported as a failure. -/
theorem upload_retry_bound (f : Nat → Except PyErr Unit) :
    ((∀ i, i ≤ 9 → (f i).isOk = false) → uploadRetried f = f 9)
    ∧ (∀ j, j ≤ 9 → f j = .ok () → (∀ i, i < j → (f i).isOk = false) →
        uploadRetried f = .ok ()) := by
  constructor
  · intro h
    have := retryCall_all_fail f 9 0 (fun j hj => by simpa using h j hj)
    simpa [uploadRetried] using this
  · intro j hj hok hprev
    rw [uploadRetried]
    exact retryCall_stops_at_success f j 9 0 hj (by simpa using hok)
      (fun t ht => by simpa using hprev t ht)

/-- Per-attempt outcomes where the first ten attempts all fail (and any
later attempt would succeed, showing the ceiling really is 10). -/
def wAttemptFail : Nat → Except PyErr Unit :=
  fun i => if i ≤ 9 then .error (.exc "neterr") else .ok ()

/-- Per-attempt outcomes where attempt 3 succeeds after three failures. -/
def wAttemptOk3 : Nat → Except PyErr Unit :=
  fun i => if i == 3 then .ok () else .error (.exc "neterr")

theorem upload_retry_bound_witness :
    uploadRetried wAttemptFail = .error (.exc "neterr")
    ∧ uploadRetried wAttemptOk3 = .ok () :=
  ⟨((upload_retry_bound wAttemptFail).1 (by decide)).trans rfl,
   (upload_retry_bound wAttemptOk3).2 3 (by decide) rfl (by decide)⟩

/- ### Witnesses for the orchestrator claims (C2, C9) -/

/-- Three outputs of one matched rule; the second one (`wPf`) fails. -/
def wOut1 : OutputCfg :=
  { bucket := some "ob", key := "k1", width := some 100,
    policy := none, region := none, attr := none }

/-- The failing second output. -/
def wOut2 : OutputCfg :=
  { bucket := some "ob", key := "k2", width := some 100,
    policy := none, region := none, attr := none }

/-- The third output, after the failure. -/
def wOut3 : OutputCfg :=
  { bucket := some "ob", key := "k3", width := some 100,
    policy := none, region := none, attr := none }

/-- A matched rule with the three outputs above. -/
def wRule : RuleCfg :=
  { bucket := some "b", key_regexp := some "p", outputs := [wOut1, wOut2, wOut3] }

theorem lambda_handler_failure_aggregation_witness :
    (lambda_handler wRematch pyFormat wUnquote wPf [wRule] [⟨"b", "kk"⟩] =
      .completed ("b", wUnquote "kk") (allOutputs [wRule])
        (lastErr wPf (allOutputs [wRule]))
    ∧ (lastErr wPf (allOutputs [wRule]) = none ↔
        ∀ o ∈ allOutputs [wRule], wPf o = .ok ()))
    ∧ lastErr wPf (allOutputs [wRule]) = some "boom"
    ∧ allOutputs [wRule] = [wOut1, wOut2, wOut3] := by
  refine ⟨?_, by decide, by decide⟩
  exact lambda_handler_failure_aggregation wRematch pyFormat wUnquote wPf [wRule]
    ⟨"b", "kk"⟩ [] [wRule] rfl (by decide)

theorem no_match_returns_success_witness :
    lambda_handler wRematch pyFormat wUnquote wPf [] [⟨"b", "kk"⟩] = .noMatch
    ∧ (lambda_handler wRematch pyFormat wUnquote wPf [] [⟨"b", "kk"⟩]).succeeded = true
    ∧ (lambda_handler wRematch pyFormat wUnquote wPf [] [⟨"b", "kk"⟩]).downloads = []
    ∧ (lambda_handler wRematch pyFormat wUnquote wPf [] [⟨"b", "kk"⟩]).attempted = [] :=
  no_match_returns_success wRematch pyFormat wUnquote wPf [] ⟨"b", "kk"⟩ [] rfl
